import Mathlib

/-!
Verification development for the coing_bot trading engine (main.go).

Floating-point values (float64) are modelled as rationals; the one
transcendental operation, math.Sqrt inside calculateBollingerBands, is
abstracted as an explicit function parameter sqrtFn so that every stated
property is independent of the numeric realisation of the square root.
Slices of float64 become lists of rationals (newest price last), and the
mutex-guarded mutable fields of TradingBot become an explicit state record.
-/

namespace CoingBot

/-- Moving average over the last period samples; source: TechnicalIndicators.calculateMA.
Returns 0 when fewer than period samples are available. -/
def calculateMA (prices : List ℚ) (period : ℕ) : ℚ :=
  if prices.length < period then 0
  else
    (((List.range period).map (fun k => prices.getD (prices.length - period + k) 0)).sum)
      / (period : ℚ)

/-- Change of price at loop index k (source index i = len - period + k):
Prices[i] - Prices[i-1]; source: the loop body of calculateRSI. -/
def priceChange (prices : List ℚ) (period k : ℕ) : ℚ :=
  prices.getD (prices.length - period + k) 0 - prices.getD (prices.length - period + k - 1) 0

/-- Accumulated gains of the RSI loop: positive changes summed; source: the
gains accumulator of calculateRSI. -/
def rsiGains (prices : List ℚ) (period : ℕ) : ℚ :=
  (((List.range period).map (fun k =>
    if priceChange prices period k > 0 then priceChange prices period k else 0))).sum

/-- Accumulated losses of the RSI loop: non-positive changes negated and
summed; source: the losses accumulator of calculateRSI. -/
def rsiLosses (prices : List ℚ) (period : ℕ) : ℚ :=
  (((List.range period).map (fun k =>
    if priceChange prices period k > 0 then 0 else -priceChange prices period k))).sum

/-- RSI over the last period deltas; source: TechnicalIndicators.calculateRSI.
Returns 0 with fewer than period+1 samples; 100 when losses == 0. -/
def calculateRSI (prices : List ℚ) (period : ℕ) : ℚ :=
  if prices.length < period + 1 then 0
  else if rsiLosses prices period = 0 then 100
  else
    let rs := rsiGains prices period / rsiLosses prices period
    100 - (100 / (1 + rs))

/-- Rolling standard deviation of the Bollinger computation: sqrtFn applied to
the mean of squared deviations from the period moving average; source: the
variance loop and the sd assignment of calculateBollingerBands, with sqrtFn
abstracting math.Sqrt. -/
def bollingerSd (sqrtFn : ℚ → ℚ) (prices : List ℚ) (period : ℕ) : ℚ :=
  sqrtFn ((((List.range period).map (fun k =>
    (prices.getD (prices.length - period + k) 0 - calculateMA prices period) ^ 2)).sum)
      / (period : ℚ))

/-- Bollinger bands; source: TechnicalIndicators.calculateBollingerBands.
sqrtFn abstracts math.Sqrt. Returns (middle, upper, lower); all zero when
fewer than period samples are available. -/
def calculateBollingerBands (sqrtFn : ℚ → ℚ) (prices : List ℚ) (period : ℕ)
    (stdDev : ℚ) : ℚ × ℚ × ℚ :=
  if prices.length < period then (0, 0, 0)
  else
    let middle := calculateMA prices period
    let sd := bollingerSd sqrtFn prices period
    (middle, middle + sd * stdDev, middle - sd * stdDev)

/-- Trade signal record; source: TradeSignal struct (Type, Price, Volume, Confidence).
The Go zero values of Volume and Confidence are made explicit at construction. -/
structure TradeSignal where
  «Type» : String
  Price : ℚ
  Volume : ℚ
  Confidence : ℚ
deriving DecidableEq

/-- Strategy parameters; source: TradingStrategy struct. -/
structure TradingStrategy where
  ShortMA : ℕ
  LongMA : ℕ
  RSIPeriod : ℕ
  BBPeriod : ℕ
  BBStdDev : ℚ
deriving DecidableEq

/-- Risk parameters; source: RiskManager struct. -/
structure RiskManager where
  MaxPositionSize : ℚ
  StopLoss : ℚ
  TakeProfit : ℚ
  MaxDrawdown : ℚ
  DailyLimit : ℚ
deriving DecidableEq

/-- RSI strength term of the confidence score; source: the rsiSignal variable
of calculateConfidence. -/
def rsiStrength (rsi : ℚ) : ℚ :=
  if rsi < 30 then (30 - rsi) / 30
  else if rsi > 70 then (rsi - 70) / 30
  else 0

/-- Confidence score; source: calculateConfidence. The raw weighted sum is
capped above at 1; no explicit lower cap exists in the source. -/
def calculateConfidence (shortMA longMA rsi price band : ℚ) : ℚ :=
  let maSignal := |shortMA - longMA| / longMA
  let bandSignal := |price - band| / band
  let confidence := maSignal * 0.4 + rsiStrength rsi * 0.3 + bandSignal * 0.3
  if confidence > 1 then 1 else confidence

/-- Signal analysis; source: TradingStrategy.analyzeSignals. The buy branch is
evaluated first; the sell branch may then overwrite the signal. -/
def analyzeSignals (sqrtFn : ℚ → ℚ) (ts : TradingStrategy) (prices : List ℚ) : TradeSignal :=
  let shortMA := calculateMA prices ts.ShortMA
  let longMA := calculateMA prices ts.LongMA
  let rsi := calculateRSI prices ts.RSIPeriod
  let bb := calculateBollingerBands sqrtFn prices ts.BBPeriod ts.BBStdDev
  let upperBB := bb.2.1
  let lowerBB := bb.2.2
  let currentPrice := prices.getD (prices.length - 1) 0
  let base : TradeSignal := { «Type» := "hold", Price := currentPrice, Volume := 0, Confidence := 0 }
  let afterBuy : TradeSignal :=
    if shortMA > longMA ∧ rsi < 30 ∧ currentPrice < lowerBB then
      { base with
        «Type» := "buy"
        Volume := 0
        Confidence := calculateConfidence shortMA longMA rsi currentPrice lowerBB }
    else base
  if shortMA < longMA ∧ rsi > 70 ∧ currentPrice > upperBB then
    { afterBuy with
      «Type» := "sell"
      Volume := 0
      Confidence := calculateConfidence shortMA longMA rsi currentPrice upperBB }
  else afterBuy

/-- The buy condition of analyzeSignals, exactly as tested by the source:
shortMA > longMA, rsi < 30, and the latest price below the lower band. -/
def buyCondition (sqrtFn : ℚ → ℚ) (ts : TradingStrategy) (prices : List ℚ) : Prop :=
  calculateMA prices ts.ShortMA > calculateMA prices ts.LongMA ∧
  calculateRSI prices ts.RSIPeriod < 30 ∧
  prices.getD (prices.length - 1) 0 <
    (calculateBollingerBands sqrtFn prices ts.BBPeriod ts.BBStdDev).2.2

/-- The sell condition of analyzeSignals, exactly as tested by the source:
shortMA < longMA, rsi > 70, and the latest price above the upper band. -/
def sellCondition (sqrtFn : ℚ → ℚ) (ts : TradingStrategy) (prices : List ℚ) : Prop :=
  calculateMA prices ts.ShortMA < calculateMA prices ts.LongMA ∧
  calculateRSI prices ts.RSIPeriod > 70 ∧
  prices.getD (prices.length - 1) 0 >
    (calculateBollingerBands sqrtFn prices ts.BBPeriod ts.BBStdDev).2.1

instance buyCondition.instDecidable (sqrtFn : ℚ → ℚ) (ts : TradingStrategy)
    (prices : List ℚ) : Decidable (buyCondition sqrtFn ts prices) := by
  unfold buyCondition; infer_instance

instance sellCondition.instDecidable (sqrtFn : ℚ → ℚ) (ts : TradingStrategy)
    (prices : List ℚ) : Decidable (sellCondition sqrtFn ts prices) := by
  unfold sellCondition; infer_instance

/-- Position sizing; source: RiskManager.calculatePositionSize. -/
def calculatePositionSize (rm : RiskManager) (signal : TradeSignal)
    (balance currentPrice : ℚ) : ℚ :=
  let baseSize := balance * 0.02
  let adjustedSize := baseSize * signal.Confidence
  let adjustedSize := if adjustedSize > rm.MaxPositionSize then rm.MaxPositionSize else adjustedSize
  let riskAmount := currentPrice * (rm.StopLoss / 100)
  if riskAmount > 0 then
    let maxSizeByRisk := (balance * 0.02) / riskAmount
    if adjustedSize > maxSizeByRisk then maxSizeByRisk else adjustedSize
  else adjustedSize

/-- Price-window append with FIFO eviction at capacity 100; source: the update
step of executeTradeLoop (also duplicated in fetchPriceData). -/
def appendPrice (prices : List ℚ) (price : ℚ) : List ℚ :=
  let ps := prices ++ [price]
  if ps.length > 100 then ps.drop 1 else ps

/-- Price validation; source: the final check of fetchCurrentPrice, which
returns an error instead of a non-positive trade price. -/
def validatePrice (price : ℚ) : Except String ℚ :=
  if price ≤ 0 then Except.error "invalid price data (zero or negative)"
  else Except.ok price

/-- Price-update step of a trade cycle; source: executeTradeLoop, which aborts
the cycle (window untouched) when fetchCurrentPrice reports an error, and
otherwise appends the validated price to the window. -/
def tradeLoopPriceUpdate (prices : List ℚ) (fetchedPrice : ℚ) : List ℚ :=
  match validatePrice fetchedPrice with
  | Except.error _ => prices
  | Except.ok p => appendPrice prices p

/-- Controller state; source: the mutex-guarded fields of TradingBot
(isRunning, cancelFunc) together with the set of periodic cycle loops the
bot has launched, each recorded by its tick interval. -/
structure BotState where
  isRunning : Bool
  cancelSet : Bool
  activeLoops : List ℕ
deriving DecidableEq

/-- The initial (Idle) controller state: not running, no cancellation handle
recorded, no cycle loop active. -/
def idleBot : BotState :=
  { isRunning := false, cancelSet := false, activeLoops := [] }

/-- Start transition; source: TradingBot.StartTrading. Already running: return
unchanged (no new loop). Otherwise: mark running, launch one periodic cycle
loop at the given interval, record the cancellation handle. -/
def startTrading (s : BotState) (interval : ℕ) : BotState :=
  if s.isRunning then s
  else { isRunning := true, cancelSet := true, activeLoops := s.activeLoops ++ [interval] }

/-- Modelled from the spec: the HTTP stop route calls bot.StopTrading(), but
the StopTrading method body is missing from the sources under src/. Per the
spec, stop() on an Idle controller is a no-op; on a Running controller it
invokes the recorded cancellation handle — terminating the periodic cycle
loop so that no future cycle is scheduled — and transitions back to Idle. -/
def stopTrading (s : BotState) : BotState :=
  if s.isRunning then { s with isRunning := false, activeLoops := [] }
  else s

/-! Theorems. -/

lemma rsiStrength_nonneg (rsi : ℚ) : 0 ≤ rsiStrength rsi := by
  unfold rsiStrength
  split_ifs with h1 h2
  · exact div_nonneg (by linarith) (by norm_num)
  · exact div_nonneg (by linarith) (by norm_num)
  · exact le_refl 0

lemma rsiGains_nonneg (prices : List ℚ) (period : ℕ) : 0 ≤ rsiGains prices period := by
  unfold rsiGains
  apply List.sum_nonneg
  intro x hx
  simp only [List.mem_map] at hx
  obtain ⟨k, -, rfl⟩ := hx
  split_ifs with h
  · exact le_of_lt h
  · exact le_refl 0

lemma rsiLosses_nonneg (prices : List ℚ) (period : ℕ) : 0 ≤ rsiLosses prices period := by
  unfold rsiLosses
  apply List.sum_nonneg
  intro x hx
  simp only [List.mem_map] at hx
  obtain ⟨k, -, rfl⟩ := hx
  split_ifs with h
  · exact le_refl 0
  · exact neg_nonneg.mpr (not_lt.1 h)

/-- C3: for all inputs with positive longMA and positive band, the confidence
score is in the closed interval from 0 to 1. -/
theorem calculateConfidence_unit_range (shortMA longMA rsi price band : ℚ)
    (hlong : 0 < longMA) (hband : 0 < band) :
    0 ≤ calculateConfidence shortMA longMA rsi price band ∧
    calculateConfidence shortMA longMA rsi price band ≤ 1 := by
  have h1 : 0 ≤ |shortMA - longMA| / longMA := div_nonneg (abs_nonneg _) hlong.le
  have h2 : 0 ≤ rsiStrength rsi := rsiStrength_nonneg rsi
  have h3 : 0 ≤ |price - band| / band := div_nonneg (abs_nonneg _) hband.le
  simp only [calculateConfidence]
  split_ifs with hc
  · norm_num
  · exact ⟨by linarith, le_of_not_lt hc⟩

/-- C3 witness: concrete instance of the confidence range theorem. -/
theorem calculateConfidence_unit_range_witness :
    (0:ℚ) < 1 ∧ (0:ℚ) < 2 ∧
    (0 ≤ calculateConfidence 5 1 80 9 2 ∧ calculateConfidence 5 1 80 9 2 ≤ 1) :=
  ⟨by norm_num, by norm_num,
    calculateConfidence_unit_range 5 1 80 9 2 (by norm_num) (by norm_num)⟩

/-- C4: the RSI is always between 0 and 100; it is 0 when fewer than period+1
samples exist, and exactly 100 when all of the last period deltas are
non-negative. -/
theorem calculateRSI_range_and_extremes (prices : List ℚ) (period : ℕ) (_hp : 0 < period) :
    (0 ≤ calculateRSI prices period ∧ calculateRSI prices period ≤ 100) ∧
    (prices.length < period + 1 → calculateRSI prices period = 0) ∧
    (period + 1 ≤ prices.length →
      (∀ k, k < period → 0 ≤ priceChange prices period k) →
      calculateRSI prices period = 100) := by
  refine ⟨?_, fun h => ?_, fun hlen hmono => ?_⟩
  · simp only [calculateRSI]
    split_ifs with h1 h2
    · norm_num
    · norm_num
    · have hg := rsiGains_nonneg prices period
      have hl := rsiLosses_nonneg prices period
      have hrs : 0 ≤ rsiGains prices period / rsiLosses prices period := div_nonneg hg hl
      have hd1 : 0 < 100 / (1 + rsiGains prices period / rsiLosses prices period) := by
        positivity
      have hd2 : 100 / (1 + rsiGains prices period / rsiLosses prices period) ≤ 100 :=
        div_le_self (by norm_num) (by linarith)
      exact ⟨by linarith, by linarith⟩
  · simp only [calculateRSI]
    rw [if_pos h]
  · have hnl : ¬ prices.length < period + 1 := not_lt.2 hlen
    have hzero : rsiLosses prices period = 0 := by
      unfold rsiLosses
      apply List.sum_eq_zero
      intro x hx
      simp only [List.mem_map, List.mem_range] at hx
      obtain ⟨k, hk, rfl⟩ := hx
      split_ifs with h
      · rfl
      · have h1 := hmono k hk
        have h2 := not_lt.1 h
        have h3 : priceChange prices period k = 0 := le_antisymm h2 h1
        rw [h3, neg_zero]
    simp only [calculateRSI]
    rw [if_neg hnl, if_pos hzero]

/-- C4 witness: concrete instance of the RSI theorem on a rising window. -/
theorem calculateRSI_range_and_extremes_witness :
    0 < 2 ∧ 2 + 1 ≤ ([1, 2, 3] : List ℚ).length ∧ calculateRSI [1, 2, 3] 2 = 100 :=
  ⟨by decide, by decide,
    (calculateRSI_range_and_extremes [1, 2, 3] 2 (by decide)).2.2 (by decide)
      (by intro k hk; interval_cases k <;> norm_num [priceChange])⟩

/-- C5: with at least period samples the Bollinger result has the moving
average as middle value and satisfies upper - lower = 2 * sd * stdDev for the
rolling standard deviation sd; with fewer samples it is (0, 0, 0). -/
theorem calculateBollingerBands_spec (sqrtFn : ℚ → ℚ) (prices : List ℚ)
    (period : ℕ) (stdDev : ℚ) :
    (period ≤ prices.length →
      (calculateBollingerBands sqrtFn prices period stdDev).1 = calculateMA prices period ∧
      (calculateBollingerBands sqrtFn prices period stdDev).2.1 -
          (calculateBollingerBands sqrtFn prices period stdDev).2.2 =
        2 * bollingerSd sqrtFn prices period * stdDev) ∧
    (prices.length < period → calculateBollingerBands sqrtFn prices period stdDev = (0, 0, 0)) := by
  constructor
  · intro h
    have hn : ¬ prices.length < period := not_lt.2 h
    simp only [calculateBollingerBands, if_neg hn]
    exact ⟨trivial, by ring⟩
  · intro h
    simp only [calculateBollingerBands, if_pos h]

/-- C5 witness: concrete instance of the Bollinger identity. -/
theorem calculateBollingerBands_spec_witness :
    2 ≤ ([1, 1, 1, 1] : List ℚ).length ∧
    ((calculateBollingerBands id [1, 1, 1, 1] 2 (3/2)).1 = calculateMA [1, 1, 1, 1] 2 ∧
     (calculateBollingerBands id [1, 1, 1, 1] 2 (3/2)).2.1 -
         (calculateBollingerBands id [1, 1, 1, 1] 2 (3/2)).2.2 =
       2 * bollingerSd id [1, 1, 1, 1] 2 * (3/2)) :=
  ⟨by decide, (calculateBollingerBands_spec id [1, 1, 1, 1] 2 (3/2)).1 (by decide)⟩

/-- C6: appending to a window of length at most 100 keeps the length at most
100; at full capacity exactly the oldest entry is dropped and the order of the
rest is preserved, below capacity nothing is evicted. -/
theorem appendPrice_capacity (prices : List ℚ) (price : ℚ) (h : prices.length ≤ 100) :
    (appendPrice prices price).length ≤ 100 ∧
    (prices.length = 100 → appendPrice prices price = prices.drop 1 ++ [price]) ∧
    (prices.length < 100 → appendPrice prices price = prices ++ [price]) := by
  simp only [appendPrice, List.length_append, List.length_singleton]
  split_ifs with hgt
  · refine ⟨?_, fun _ => ?_, fun hlt => absurd hlt (by omega)⟩
    · simp only [List.length_drop, List.length_append, List.length_singleton]
      omega
    · exact List.drop_append_of_le_length (by omega)
  · refine ⟨?_, fun heq => absurd heq (by omega), fun _ => rfl⟩
    simp only [List.length_append, List.length_singleton]
    omega

/-- C6 witness: concrete instance of the capacity theorem. -/
theorem appendPrice_capacity_witness :
    ([5] : List ℚ).length ≤ 100 ∧
    ((appendPrice [5] 6).length ≤ 100 ∧
     (([5] : List ℚ).length = 100 → appendPrice [5] 6 = ([5] : List ℚ).drop 1 ++ [6]) ∧
     (([5] : List ℚ).length < 100 → appendPrice [5] 6 = [5, 6])) :=
  ⟨by decide, appendPrice_capacity [5] 6 (by decide)⟩

/-- C7: a non-positive fetched price is rejected with the invalid-price error
and the price window is left unchanged. -/
theorem nonpositive_price_rejected (prices : List ℚ) (price : ℚ) (h : price ≤ 0) :
    validatePrice price = Except.error "invalid price data (zero or negative)" ∧
    tradeLoopPriceUpdate prices price = prices := by
  have hv : validatePrice price = Except.error "invalid price data (zero or negative)" := by
    simp only [validatePrice, if_pos h]
  exact ⟨hv, by simp only [tradeLoopPriceUpdate, hv]⟩

/-- C7 witness: appending the price 0 to a one-element window is rejected. -/
theorem nonpositive_price_rejected_witness :
    (0:ℚ) ≤ 0 ∧
    (validatePrice 0 = Except.error "invalid price data (zero or negative)" ∧
     tradeLoopPriceUpdate [3] 0 = [3]) :=
  ⟨by norm_num, nonpositive_price_rejected [3] 0 (by norm_num)⟩

lemma analyzeSignals_eq (sqrtFn : ℚ → ℚ) (ts : TradingStrategy) (prices : List ℚ) :
    analyzeSignals sqrtFn ts prices =
      if sellCondition sqrtFn ts prices then
        ⟨"sell", prices.getD (prices.length - 1) 0, 0,
          calculateConfidence (calculateMA prices ts.ShortMA) (calculateMA prices ts.LongMA)
            (calculateRSI prices ts.RSIPeriod) (prices.getD (prices.length - 1) 0)
            ((calculateBollingerBands sqrtFn prices ts.BBPeriod ts.BBStdDev).2.1)⟩
      else if buyCondition sqrtFn ts prices then
        ⟨"buy", prices.getD (prices.length - 1) 0, 0,
          calculateConfidence (calculateMA prices ts.ShortMA) (calculateMA prices ts.LongMA)
            (calculateRSI prices ts.RSIPeriod) (prices.getD (prices.length - 1) 0)
            ((calculateBollingerBands sqrtFn prices ts.BBPeriod ts.BBStdDev).2.2)⟩
      else ⟨"hold", prices.getD (prices.length - 1) 0, 0, 0⟩ := by
  simp only [analyzeSignals, buyCondition, sellCondition]
  split_ifs <;> rfl

/-- C1: with sufficient data, analyzeSignals yields a sell signal exactly when
the sell condition holds, else a buy signal when the buy condition holds, else
hold; the sell check runs after the buy check and overrides it, and the two
directional conditions are mutually exclusive because shortMA > longMA and
shortMA < longMA cannot hold together. -/
theorem analyzeSignals_decision (sqrtFn : ℚ → ℚ) (ts : TradingStrategy) (prices : List ℚ)
    (_hlen : max ts.LongMA ts.BBPeriod + 1 ≤ prices.length) :
    (sellCondition sqrtFn ts prices → (analyzeSignals sqrtFn ts prices).«Type» = "sell") ∧
    (¬ sellCondition sqrtFn ts prices → buyCondition sqrtFn ts prices →
      (analyzeSignals sqrtFn ts prices).«Type» = "buy") ∧
    (¬ sellCondition sqrtFn ts prices → ¬ buyCondition sqrtFn ts prices →
      (analyzeSignals sqrtFn ts prices).«Type» = "hold") ∧
    ¬ (buyCondition sqrtFn ts prices ∧ sellCondition sqrtFn ts prices) := by
  refine ⟨fun hs => ?_, fun hns hb => ?_, fun hns hnb => ?_, fun h => ?_⟩
  · rw [analyzeSignals_eq, if_pos hs]
  · rw [analyzeSignals_eq, if_neg hns, if_pos hb]
  · rw [analyzeSignals_eq, if_neg hns, if_neg hnb]
  · exact absurd h.2.1 (lt_asymm h.1.1)

/-- C1 witness: a flat four-sample window with strategy periods 2, 3, 2, 3. -/
theorem analyzeSignals_decision_witness :
    max (⟨2, 3, 2, 3, 1⟩ : TradingStrategy).LongMA (⟨2, 3, 2, 3, 1⟩ : TradingStrategy).BBPeriod
        + 1 ≤ ([1, 1, 1, 1] : List ℚ).length ∧
    (¬ sellCondition (fun _ => 0) ⟨2, 3, 2, 3, 1⟩ [1, 1, 1, 1] →
      ¬ buyCondition (fun _ => 0) ⟨2, 3, 2, 3, 1⟩ [1, 1, 1, 1] →
      (analyzeSignals (fun _ => 0) ⟨2, 3, 2, 3, 1⟩ [1, 1, 1, 1]).«Type» = "hold") ∧
    ¬ (buyCondition (fun _ => 0) ⟨2, 3, 2, 3, 1⟩ [1, 1, 1, 1] ∧
       sellCondition (fun _ => 0) ⟨2, 3, 2, 3, 1⟩ [1, 1, 1, 1]) :=
  ⟨by decide,
    (analyzeSignals_decision (fun _ => 0) ⟨2, 3, 2, 3, 1⟩ [1, 1, 1, 1] (by decide)).2.2.1,
    (analyzeSignals_decision (fun _ => 0) ⟨2, 3, 2, 3, 1⟩ [1, 1, 1, 1] (by decide)).2.2.2⟩

/-- C10: a hold signal carries confidence 0, volume 0, and the latest window
price. -/
theorem hold_signal_fields (sqrtFn : ℚ → ℚ) (ts : TradingStrategy) (prices : List ℚ)
    (h : (analyzeSignals sqrtFn ts prices).«Type» = "hold") :
    (analyzeSignals sqrtFn ts prices).Confidence = 0 ∧
    (analyzeSignals sqrtFn ts prices).Volume = 0 ∧
    (analyzeSignals sqrtFn ts prices).Price = prices.getD (prices.length - 1) 0 := by
  by_cases hs : sellCondition sqrtFn ts prices
  · rw [analyzeSignals_eq, if_pos hs] at h
    simp at h
  · by_cases hb : buyCondition sqrtFn ts prices
    · rw [analyzeSignals_eq, if_neg hs, if_pos hb] at h
      simp at h
    · rw [analyzeSignals_eq, if_neg hs, if_neg hb]
      exact ⟨rfl, rfl, rfl⟩

/-- C10 witness: the flat window produces a hold signal with zero confidence
and volume and the latest price. -/
theorem hold_signal_fields_witness :
    (analyzeSignals (fun _ => 0) ⟨2, 3, 2, 3, 1⟩ [1, 1, 1, 1]).«Type» = "hold" ∧
    ((analyzeSignals (fun _ => 0) ⟨2, 3, 2, 3, 1⟩ [1, 1, 1, 1]).Confidence = 0 ∧
     (analyzeSignals (fun _ => 0) ⟨2, 3, 2, 3, 1⟩ [1, 1, 1, 1]).Volume = 0 ∧
     (analyzeSignals (fun _ => 0) ⟨2, 3, 2, 3, 1⟩ [1, 1, 1, 1]).Price =
       ([1, 1, 1, 1] : List ℚ).getD (([1, 1, 1, 1] : List ℚ).length - 1) 0) :=
  ⟨by norm_num [analyzeSignals, calculateMA, calculateRSI, calculateBollingerBands,
      rsiGains, rsiLosses, priceChange, bollingerSd, List.range_succ],
   hold_signal_fields (fun _ => 0) ⟨2, 3, 2, 3, 1⟩ [1, 1, 1, 1]
     (by norm_num [analyzeSignals, calculateMA, calculateRSI, calculateBollingerBands,
        rsiGains, rsiLosses, priceChange, bollingerSd, List.range_succ])⟩

/-- C2 counterexample: with a negative configured MaxPositionSize, a
non-negative balance and a confidence of 1 the computed volume is negative,
refuting the unconditional non-negativity of the claim. -/
theorem calculatePositionSize_nonneg_counterexample :
    (0:ℚ) ≤ 100 ∧ (0:ℚ) ≤ 1 ∧ (1:ℚ) ≤ 1 ∧
    calculatePositionSize ⟨-1, 0, 0, 0, 0⟩ ⟨"buy", 0, 0, 1⟩ 100 1 < 0 := by
  norm_num [calculatePositionSize]

/-- C2 (amended): for non-negative balance and confidence in the unit
interval, the volume never exceeds min(MaxPositionSize, balance * 0.02); it is
non-negative provided the configured MaxPositionSize is non-negative. -/
theorem calculatePositionSize_bounds (rm : RiskManager) (signal : TradeSignal)
    (balance currentPrice : ℚ) (hb : 0 ≤ balance)
    (hc0 : 0 ≤ signal.Confidence) (hc1 : signal.Confidence ≤ 1) :
    calculatePositionSize rm signal balance currentPrice ≤
      min rm.MaxPositionSize (balance * 0.02) ∧
    (0 ≤ rm.MaxPositionSize → 0 ≤ calculatePositionSize rm signal balance currentPrice) := by
  have hb2 : 0 ≤ balance * 0.02 := mul_nonneg hb (by norm_num)
  have hadj0 : 0 ≤ balance * 0.02 * signal.Confidence := mul_nonneg hb2 hc0
  have hadj1 : balance * 0.02 * signal.Confidence ≤ balance * 0.02 :=
    mul_le_of_le_one_right hb2 hc1
  simp only [calculatePositionSize]
  set a := balance * 0.02 * signal.Confidence with ha
  set v1 := if a > rm.MaxPositionSize then rm.MaxPositionSize else a with hv1
  have hv1_max : v1 ≤ rm.MaxPositionSize := by
    rw [hv1]; split_ifs with h
    · exact le_refl _
    · exact le_of_not_lt h
  have hv1_b2 : v1 ≤ balance * 0.02 := by
    rw [hv1]; split_ifs with h
    · linarith
    · exact hadj1
  have hv1_nn : 0 ≤ rm.MaxPositionSize → 0 ≤ v1 := by
    rw [hv1]; split_ifs with h
    · exact fun hM => hM
    · exact fun _ => hadj0
  split_ifs with hr hgt
  · refine ⟨le_min ?_ ?_, fun _ => ?_⟩
    · exact le_trans (le_of_lt hgt) hv1_max
    · exact le_trans (le_of_lt hgt) hv1_b2
    · exact div_nonneg hb2 (le_of_lt hr)
  · exact ⟨le_min hv1_max hv1_b2, hv1_nn⟩
  · exact ⟨le_min hv1_max hv1_b2, hv1_nn⟩

/-- C2 witness: the worked sizing example of the specification — balance
100000, confidence one half, MaxPositionSize 1000, stop loss 2 percent,
price 50000. -/
theorem calculatePositionSize_bounds_witness :
    (0:ℚ) ≤ 100000 ∧ (0:ℚ) ≤ 1/2 ∧ (1/2:ℚ) ≤ 1 ∧
    (calculatePositionSize ⟨1000, 2, 3, 5, 10000⟩ ⟨"buy", 50000, 0, 1/2⟩ 100000 50000 ≤
       min (1000:ℚ) (100000 * 0.02) ∧
     (0 ≤ (1000:ℚ) →
       0 ≤ calculatePositionSize ⟨1000, 2, 3, 5, 10000⟩ ⟨"buy", 50000, 0, 1/2⟩ 100000 50000)) :=
  ⟨by norm_num, by norm_num, by norm_num,
    calculatePositionSize_bounds ⟨1000, 2, 3, 5, 10000⟩ ⟨"buy", 50000, 0, 1/2⟩ 100000 50000
      (by norm_num) (by norm_num) (by norm_num)⟩

/-- C8: starting an already running controller changes nothing and launches no
further cycle loop, so two starts in a row leave exactly one loop; starting an
idle controller marks it running, launches one loop at the given interval, and
records the cancellation handle. -/
theorem startTrading_idempotent (s : BotState) (interval : ℕ) :
    (s.isRunning = true → startTrading s interval = s) ∧
    startTrading (startTrading s interval) interval = startTrading s interval ∧
    (startTrading (startTrading idleBot interval) interval).activeLoops = [interval] ∧
    (s.isRunning = false →
      (startTrading s interval).isRunning = true ∧
      (startTrading s interval).activeLoops = s.activeLoops ++ [interval] ∧
      (startTrading s interval).cancelSet = true) := by
  obtain ⟨run, c, loops⟩ := s
  cases run <;> simp [startTrading, idleBot]

/-- C8 witness: starting the idle controller at interval 30. -/
theorem startTrading_idempotent_witness :
    idleBot.isRunning = false ∧
    ((startTrading idleBot 30).isRunning = true ∧
     (startTrading idleBot 30).activeLoops = idleBot.activeLoops ++ [30] ∧
     (startTrading idleBot 30).cancelSet = true) :=
  ⟨by decide, (startTrading_idempotent idleBot 30).2.2.2 (by decide)⟩

/-- C9: stopping an idle controller is a no-op; stopping a running controller
cancels the periodic loop — leaving no scheduled cycle — and returns the
controller to idle. -/
theorem stopTrading_spec (s : BotState) :
    (s.isRunning = false → stopTrading s = s) ∧
    (s.isRunning = true →
      (stopTrading s).isRunning = false ∧
      (stopTrading s).activeLoops = [] ∧
      (stopTrading s).cancelSet = s.cancelSet) := by
  obtain ⟨run, c, loops⟩ := s
  cases run <;> simp [stopTrading]

/-- C9 witness: stopping a running controller with one active loop. -/
theorem stopTrading_spec_witness :
    (⟨true, true, [30]⟩ : BotState).isRunning = true ∧
    ((stopTrading ⟨true, true, [30]⟩).isRunning = false ∧
     (stopTrading ⟨true, true, [30]⟩).activeLoops = [] ∧
     (stopTrading ⟨true, true, [30]⟩).cancelSet = (⟨true, true, [30]⟩ : BotState).cancelSet) :=
  ⟨by decide, (stopTrading_spec ⟨true, true, [30]⟩).2 (by decide)⟩

end CoingBot
